import Mathlib

/-!
Verification of the segment rule compiler and the campaign dispatch /
delivery pipeline of the mini-CRM repository.

The definitions below are shallow embeddings of:
  * `buildSegmentQuery` / `processRule` (src/server/utils/segmentUtils.js,
    duplicated verbatim in src/server/routes/segments.js),
  * `sendCampaignMessages` (src/server/routes/campaigns.js),
  * the `POST /api/vendor/delivery-receipt` handler (vendor routes),
  * the validation slice of `POST /api/segments` and
    `POST /api/segments/preview` (src/server/routes/segments.js).

JavaScript values that flow into a rule's `value` slot are modelled by
`JSVal`; `undefined` is a distinguished constructor because the compiler
guards on `value === undefined`.  Database rows are modelled as Lean
structures, SQL `UPDATE ... WHERE id = ?` as a map over the row list, and
`Math.random()` / persistence failures as explicit oracles in an
environment record, so every function is executable and deterministic.
-/

/-- A JavaScript value as seen by the rule compiler: `undefined`, a number,
a string, or an object with named fields (used for `{min,max}` /
`{start,end}` range values). -/
inductive JSVal : Type where
  | undefined : JSVal
  | num : Int → JSVal
  | str : String → JSVal
  | obj : List (String × JSVal) → JSVal

/-- `value === undefined` in the compiler's guard. -/
def JSVal.isUndefined : JSVal → Bool
  | .undefined => true
  | _ => false

/-- JavaScript property access `v.k`, returning `undefined` when the value
is not an object or lacks the field. -/
def JSVal.getField : JSVal → String → JSVal
  | .obj fs, k =>
      match fs.find? (fun p => p.1 == k) with
      | some p => p.2
      | none => .undefined
  | _, _ => .undefined

/-- A positional SQL parameter as pushed by `processRule`: the compiler
pushes either `parseFloat(v)`, `parseInt(v)`, or the raw value.  The
conversion applied and the raw operand are recorded; their numeric
semantics are irrelevant to the claims (only identity, count and order
matter). -/
inductive Param : Type where
  | pfloat : JSVal → Param
  | pint : JSVal → Param
  | raw : JSVal → Param

/-- A segment rule tree.  The JavaScript code dispatches on
`rule.operator === 'AND' || rule.operator === 'OR'`: such a rule is a
composite with a `conditions` array, anything else is handled as a leaf
`{field, operator, value}`. -/
inductive Rule : Type where
  | comp : String → List Rule → Rule
  | cond : String → String → JSVal → Rule

/-- `Array.prototype.join(sep)` on a list of strings. -/
def joinSep (sep : String) : List String → String
  | [] => ""
  | [s] => s
  | s :: rest => s ++ sep ++ joinSep sep rest

/-- The leaf case of `processRule`: the guard
`if (!field || !operator || value === undefined) return ''` followed by the
nested `switch (field) { switch (operator) ... }`.  Returns the emitted
comparison string together with the parameters pushed for this leaf, in
push order.  Any unsupported `(field, operator)` combination yields the
empty string and pushes nothing. -/
def condLeaf (field operator : String) (value : JSVal) : String × List Param :=
  if field = "" ∨ operator = "" ∨ value.isUndefined then ("", [])
  else if field = "total_spent" then
    if operator = "greater_than" then ("total_spent > ?", [.pfloat value])
    else if operator = "less_than" then ("total_spent < ?", [.pfloat value])
    else if operator = "equals" then ("total_spent = ?", [.pfloat value])
    else if operator = "between" then
      ("total_spent BETWEEN ? AND ?",
        [.pfloat (value.getField "min"), .pfloat (value.getField "max")])
    else ("", [])
  else if field = "total_orders" then
    if operator = "greater_than" then ("total_orders > ?", [.pint value])
    else if operator = "less_than" then ("total_orders < ?", [.pint value])
    else if operator = "equals" then ("total_orders = ?", [.pint value])
    else ("", [])
  else if field = "last_visit" then
    if operator = "days_ago" then
      ("last_visit < DATE_SUB(NOW(), INTERVAL ? DAY)", [.pint value])
    else if operator = "within_days" then
      ("last_visit >= DATE_SUB(NOW(), INTERVAL ? DAY)", [.pint value])
    else if operator = "is_null" then ("last_visit IS NULL", [])
    else ("", [])
  else if field = "status" then
    if operator = "equals" then ("status = ?", [.raw value])
    else if operator = "not_equals" then ("status != ?", [.raw value])
    else ("", [])
  else if field = "registration_date" then
    if operator = "after" then ("registration_date > ?", [.raw value])
    else if operator = "before" then ("registration_date < ?", [.raw value])
    else if operator = "between" then
      ("registration_date BETWEEN ? AND ?",
        [.raw (value.getField "start"), .raw (value.getField "end")])
    else ("", [])
  else ("", [])

mutual

/-- `processRule` with the shared mutable `params` array made explicit:
the accumulator argument is the array's contents before the call, the
second component of the result its contents after.  A composite with
operator `AND`/`OR` compiles all children (pushing their parameters in
recursion order), filters out empty child expressions, and joins the
survivors; any other rule falls through to the leaf path (a composite with
an unrecognised operator destructures to an undefined `field` and returns
the empty string). -/
def processRule : Rule → List Param → String × List Param
  | .comp op conds, ps =>
      if op = "AND" ∨ op = "OR" then
        let res := processConds conds ps
        let kept := res.1.filter (fun s => s != "")
        if kept.length > 0 then
          ("(" ++ joinSep (" " ++ op ++ " ") kept ++ ")", res.2)
        else ("", res.2)
      else ("", ps)
  | .cond field operator value, ps =>
      ((condLeaf field operator value).1, ps ++ (condLeaf field operator value).2)

/-- `conditions.map(condition => processRule(condition))`, threading the
shared parameter array left to right. -/
def processConds : List Rule → List Param → List String × List Param
  | [], ps => ([], ps)
  | r :: rs, ps =>
      let first := processRule r ps
      let rest := processConds rs first.2
      (first.1 :: rest.1, rest.2)

end

/-- The compiler's result record `{ query, params }`. -/
structure CompiledQuery : Type where
  query : String
  params : List Param

/-- `buildSegmentQuery(rules)`: run `processRule` on the root with an empty
parameter array. -/
def buildSegmentQuery (rules : Rule) : CompiledQuery :=
  { query := (processRule rules []).1, params := (processRule rules []).2 }

/-- Number of `?` placeholders in an emitted SQL fragment. -/
def countPlaceholders (s : String) : Nat :=
  s.toList.countP (fun c => c == '?')

mutual

/-- Specification-side count of leaf conditions retained in the compiled
expression: a leaf counts 1 when it compiles to a non-empty comparison,
children of a composite count only when the composite operator is
`AND`/`OR`. -/
def retainedLeafCount : Rule → Nat
  | .comp op conds =>
      if op = "AND" ∨ op = "OR" then retainedLeafCountList conds else 0
  | .cond field operator value =>
      if (condLeaf field operator value).1 = "" then 0 else 1

def retainedLeafCountList : List Rule → Nat
  | [] => 0
  | r :: rs => retainedLeafCount r + retainedLeafCountList rs

end

mutual

/-- Specification-side description of the parameter list: the parameters of
each leaf, concatenated left to right in a depth-first traversal. -/
def leafParamsDF : Rule → List Param
  | .comp op conds =>
      if op = "AND" ∨ op = "OR" then leafParamsDFList conds else []
  | .cond field operator value => (condLeaf field operator value).2

def leafParamsDFList : List Rule → List Param
  | [] => []
  | r :: rs => leafParamsDF r ++ leafParamsDFList rs

end

/-- Status of a `communication_log` row
(`ENUM('pending','sent','delivered','failed','bounced')`). -/
inductive MsgStatus : Type where
  | pending : MsgStatus
  | sent : MsgStatus
  | delivered : MsgStatus
  | failed : MsgStatus
  | bounced : MsgStatus
deriving DecidableEq, Repr

/-- Status of a `campaigns` row
(`ENUM('draft','scheduled','sending','sent','failed')`). -/
inductive CampaignStatus : Type where
  | draft : CampaignStatus
  | scheduled : CampaignStatus
  | sending : CampaignStatus
  | sent : CampaignStatus
  | failed : CampaignStatus
deriving DecidableEq, Repr

/-- A `communication_log` row.  Timestamps are elided; `vendor_message_id`
and `failure_reason` model the nullable columns set by the dispatch loop
and the delivery-receipt handler. -/
structure Message : Type where
  id : Nat
  campaign_id : Nat
  customer_id : Nat
  message_content : String
  status : MsgStatus
  vendor_message_id : Option String
  failure_reason : Option String
deriving DecidableEq, Repr

/-- A `campaigns` row, restricted to the columns the dispatch loop and the
delivery-receipt handler write: `status`, and whether `sent_at` has been
stamped with `CURRENT_TIMESTAMP`. -/
structure Campaign : Type where
  id : Nat
  status : CampaignStatus
  sent_at_set : Bool
deriving DecidableEq, Repr

/-- The slice of the database the pipeline reads and writes.
`nextMessageId` models the `AUTO_INCREMENT` counter of
`communication_log`. -/
structure Db : Type where
  campaigns : List Campaign
  messages : List Message
  nextMessageId : Nat
deriving Repr

/-- `UPDATE communication_log SET ... WHERE id = ?`. -/
def updateMessage (db : Db) (mid : Nat) (f : Message → Message) : Db :=
  { db with messages := db.messages.map fun m => if m.id = mid then f m else m }

/-- `UPDATE campaigns SET status = "sent", sent_at = CURRENT_TIMESTAMP
WHERE id = ?`. -/
def markCampaignSent (db : Db) (cid : Nat) : Db :=
  { db with campaigns := db.campaigns.map fun c =>
      if c.id = cid then { c with status := .sent, sent_at_set := true } else c }

/-- `UPDATE campaigns SET status = "failed" WHERE id = ?` (does not touch
`sent_at`). -/
def markCampaignFailed (db : Db) (cid : Nat) : Db :=
  { db with campaigns := db.campaigns.map fun c =>
      if c.id = cid then { c with status := .failed } else c }

/-- Status of campaign `cid`, when the row exists. -/
def campaignStatusOf (db : Db) (cid : Nat) : Option CampaignStatus :=
  (db.campaigns.find? (fun c => c.id == cid)).map (fun c => c.status)

/-- `SELECT * FROM communication_log WHERE id = ?` (first row). -/
def findMessage (db : Db) (mid : Nat) : Option Message :=
  db.messages.find? (fun m => m.id == mid)

/-- Status of message `mid`, when the row exists. -/
def messageStatusOf (db : Db) (mid : Nat) : Option MsgStatus :=
  (findMessage db mid).map (fun m => m.status)

/-- The rows of `communication_log` belonging to campaign `cid`. -/
def campaignMessages (db : Db) (cid : Nat) : List Message :=
  db.messages.filter (fun m => m.campaign_id == cid)

/-- `COUNT(*) FROM communication_log WHERE campaign_id = ?`. -/
def totalCount (db : Db) (cid : Nat) : Nat :=
  (campaignMessages db cid).length

/-- `status IN ('sent','delivered','failed')`. -/
def isProcessedStatus : MsgStatus → Bool
  | .sent => true
  | .delivered => true
  | .failed => true
  | _ => false

/-- `SUM(CASE WHEN status IN ('sent','delivered','failed') THEN 1 ELSE 0
END)` over campaign `cid`. -/
def processedCount (db : Db) (cid : Nat) : Nat :=
  ((campaignMessages db cid).filter (fun m => isProcessedStatus m.status)).length

/-- Messages of campaign `cid` currently in status `st`. -/
def statusCount (db : Db) (cid : Nat) (st : MsgStatus) : Nat :=
  ((campaignMessages db cid).filter (fun m => m.status == st)).length

/-- A customer row, restricted to the fields the dispatch loop reads.
`total_spent` is kept as its string rendering since the template
substitution coerces it to a string anyway. -/
structure Customer : Type where
  id : Nat
  name : String
  email : String
  total_spent : String
deriving Repr

/-- `messageTemplate.replace(/\x7bname\x7d/g, ...).replace(...)`:
substitute the three recognized placeholders with the customer's fields
(every occurrence). -/
def personalizeMessage (tmpl : String) (c : Customer) : String :=
  ((tmpl.replace "\x7bname\x7d" c.name).replace "\x7bemail\x7d" c.email).replace
    "\x7btotal_spent\x7d" c.total_spent

/-- Environment of one `sendCampaignMessages` run: result of the segment
lookup, the customer store as a function of the compiled query, the
simulated vendor outcome (`Math.random() > 0.1`) for the k-th message of
the send loop, and whether the `INSERT` for the k-th audience member
throws (the persistence-failure oracle). -/
structure DispatchEnv : Type where
  segmentRules : Option Rule
  audienceOf : CompiledQuery → List Customer
  sendOk : Nat → Bool
  insertFails : Nat → Bool

/-- The `INSERT INTO communication_log (campaign_id, customer_id,
message_content, status) VALUES (?, ?, ?, 'pending')` row created for one
customer, with `mid` the auto-increment id assigned by the store. -/
def pendingMessage (campaignId : Nat) (tmpl : String) (c : Customer) (mid : Nat) :
    Message :=
  { id := mid, campaign_id := campaignId, customer_id := c.id,
    message_content := personalizeMessage tmpl c, status := .pending,
    vendor_message_id := none, failure_reason := none }

/-- The first loop of `sendCampaignMessages`: insert one `pending`
`communication_log` row per customer and collect the created rows.  The
insertion of customer `k` throws when the persistence oracle says so; the
exception carries away the rows created so far (they remain in the
database, as executed INSERTs).  The second component is the collected
`communicationLogs` array, or the error. -/
def insertPendingMessages (env : DispatchEnv) (campaignId : Nat) (tmpl : String) :
    List Customer → Nat → Db → Db × Except String (List Message)
  | [], _, db => (db, .ok [])
  | c :: rest, k, db =>
      if env.insertFails k then (db, .error "Persistence failure")
      else
        let m : Message := pendingMessage campaignId tmpl c db.nextMessageId
        let db1 : Db :=
          { campaigns := db.campaigns, messages := db.messages ++ [m],
            nextMessageId := db.nextMessageId + 1 }
        match insertPendingMessages env campaignId tmpl rest (k + 1) db1 with
        | (db2, .error e) => (db2, .error e)
        | (db2, .ok logs) => (db2, .ok (m :: logs))

/-- The second loop of `sendCampaignMessages`: for each created log entry,
simulate the vendor call and update the row to `sent` (recording a
vendor message id) or `failed` (recording the failure reason). -/
def sendLogs (env : DispatchEnv) : List Message → Nat → Db → Db
  | [], _, db => db
  | log :: rest, k, db =>
      let db1 :=
        if env.sendOk k then
          updateMessage db log.id fun m =>
            { m with status := .sent,
                     vendor_message_id := some ("msg_" ++ toString log.customer_id) }
        else
          updateMessage db log.id fun m =>
            { m with status := .failed, failure_reason := some "Vendor API error" }
      sendLogs env rest (k + 1) db1

/-- `sendCampaignMessages(campaignId, segmentId, messageTemplate)`:
look up the segment (throwing when absent), compile its rules, query the
audience, insert all pending rows, run the send loop, then update the
campaign to `sent` with `sent_at` stamped.  The surrounding `catch` marks
the campaign `failed` and rethrows; the returned `Nat` is the
`totalSent: communicationLogs.length` of the success summary. -/
def sendCampaignMessages (env : DispatchEnv) (campaignId : Nat) (tmpl : String)
    (db : Db) : Db × Except String Nat :=
  match env.segmentRules with
  | none => (markCampaignFailed db campaignId, .error "Segment not found")
  | some rules =>
      let compiled := buildSegmentQuery rules
      let customers := env.audienceOf compiled
      match insertPendingMessages env campaignId tmpl customers 0 db with
      | (db1, .error e) => (markCampaignFailed db1 campaignId, .error e)
      | (db1, .ok logs) =>
          let db2 := sendLogs env logs 0 db1
          let db3 := markCampaignSent db2 campaignId
          (db3, .ok logs.length)

/-- A delivery receipt as posted to `POST /api/vendor/delivery-receipt`
(after the presence check on `message_id` and `status`). -/
structure Receipt : Type where
  message_id : Nat
  status : String
  failure_reason : Option String
  vendor_message_id : Option String

/-- The per-message update of the delivery-receipt handler: overwrite the
row to `delivered` or `failed` according to the receipt's `status` string,
with no guard on the row's current status; any other `status` string
leaves the row untouched. -/
def receiptMessagePhase (db : Db) (r : Receipt) : Db :=
  if r.status = "delivered" then
    updateMessage db r.message_id fun m =>
      { m with status := .delivered, vendor_message_id := r.vendor_message_id }
  else if r.status = "failed" then
    updateMessage db r.message_id fun m =>
      { m with status := .failed,
               failure_reason := some (r.failure_reason.getD "Unknown error") }
  else db

/-- `POST /api/vendor/delivery-receipt`: look up the message (404 when
absent, database untouched), apply the per-message update, then recompute
the campaign's processed/total counts and mark the campaign `sent` with
`sent_at` stamped when every message is processed. -/
def applyDeliveryReceipt (db : Db) (r : Receipt) : Db × Except String Unit :=
  match findMessage db r.message_id with
  | none => (db, .error "Message not found")
  | some log =>
      let db1 := receiptMessagePhase db r
      let db2 :=
        if processedCount db1 log.campaign_id = totalCount db1 log.campaign_id ∧
           totalCount db1 log.campaign_id > 0 then
          markCampaignSent db1 log.campaign_id
        else db1
      (db2, .ok ())

/-- Result of an HTTP route handler, restricted to the outcomes the
verified slice can produce. -/
inductive ApiResult (α : Type) : Type where
  | badRequest : String → ApiResult α
  | ok : α → ApiResult α

/-- Whether a route handler rejected the request. -/
def ApiResult.isBadRequest {α : Type} : ApiResult α → Bool
  | .badRequest _ => true
  | .ok _ => false

/-- Body of `POST /api/segments` after authentication. -/
structure SegmentRequest : Type where
  name : String
  rules : Rule

/-- The Joi `segmentSchema` check relevant to the verified slice:
`name: Joi.string().min(2).max(255).required()`, `rules` present by
typing. -/
def segmentSchemaOk (req : SegmentRequest) : Bool :=
  2 ≤ req.name.length && req.name.length ≤ 255

/-- The validation slice of `POST /api/segments`: Joi validation, then
compile the rules and reject with `Invalid segment rules` when the
compiled WHERE clause is empty; otherwise the audience count query runs
and the segment is created. -/
def createSegmentHandler (req : SegmentRequest)
    (audienceCount : CompiledQuery → Nat) : ApiResult Nat :=
  if ¬ segmentSchemaOk req then .badRequest "Validation failed"
  else
    let compiled := buildSegmentQuery req.rules
    if compiled.query = "" then .badRequest "Invalid segment rules"
    else .ok (audienceCount compiled)

/-- The validation slice of `POST /api/segments/preview`: require `rules`,
compile, and reject with `Invalid segment rules` when the compiled WHERE
clause is empty; otherwise the count and sample queries run. -/
def previewSegmentHandler (rules : Option Rule)
    (audienceCount : CompiledQuery → Nat) : ApiResult Nat :=
  match rules with
  | none => .badRequest "Rules are required"
  | some rs =>
      let compiled := buildSegmentQuery rs
      if compiled.query = "" then .badRequest "Invalid segment rules"
      else .ok (audienceCount compiled)


/-- Per-leaf table of parameter slots, transcribed from the operator table
of the specification (§4.2): `between` consumes two positional values,
`is_null` none, every other supported `(field, operator)` pair one, and
unsupported combinations or guarded-out leaves contribute nothing. -/
def leafSlots (field operator : String) (value : JSVal) : Nat :=
  if field = "" ∨ operator = "" ∨ value.isUndefined then 0
  else if field = "total_spent" then
    if operator = "greater_than" then 1
    else if operator = "less_than" then 1
    else if operator = "equals" then 1
    else if operator = "between" then 2
    else 0
  else if field = "total_orders" then
    if operator = "greater_than" then 1
    else if operator = "less_than" then 1
    else if operator = "equals" then 1
    else 0
  else if field = "last_visit" then
    if operator = "days_ago" then 1
    else if operator = "within_days" then 1
    else if operator = "is_null" then 0
    else 0
  else if field = "status" then
    if operator = "equals" then 1
    else if operator = "not_equals" then 1
    else 0
  else if field = "registration_date" then
    if operator = "after" then 1
    else if operator = "before" then 1
    else if operator = "between" then 2
    else 0
  else 0

mutual

/-- Parameter slots of a whole tree: sum of `leafSlots` over the leaves
reachable through `AND`/`OR` composites, depth first. -/
def totalSlots : Rule → Nat
  | .comp op conds => if op = "AND" ∨ op = "OR" then totalSlotsList conds else 0
  | .cond field operator value => leafSlots field operator value

def totalSlotsList : List Rule → Nat
  | [] => 0
  | r :: rs => totalSlots r + totalSlotsList rs

end

theorem condLeaf_spec (f o : String) (v : JSVal) :
    countPlaceholders (condLeaf f o v).1 = (condLeaf f o v).2.length ∧
    ((condLeaf f o v).1 = "" → (condLeaf f o v).2 = []) := by
  unfold condLeaf
  repeat' split
  all_goals refine ⟨?_, fun h => ?_⟩
  all_goals try simp_all
  all_goals try decide

theorem condLeaf_length_slots (f o : String) (v : JSVal) :
    (condLeaf f o v).2.length = leafSlots f o v := by
  unfold condLeaf leafSlots
  repeat' split
  all_goals simp_all

mutual

theorem processRule_append (r : Rule) (ps : List Param) :
    processRule r ps = ((processRule r []).1, ps ++ (processRule r []).2) := by
  cases r with
  | cond f o v => simp [processRule]
  | comp op conds =>
      by_cases hop : op = "AND" ∨ op = "OR"
      · have h1 := processConds_append conds ps
        simp only [processRule, hop, if_true, h1]
        split <;> simp
      · simp [processRule, hop]

theorem processConds_append (rs : List Rule) (ps : List Param) :
    processConds rs ps = ((processConds rs []).1, ps ++ (processConds rs []).2) := by
  cases rs with
  | nil => simp [processConds]
  | cons r rest =>
      have h1 := processRule_append r ps
      have h2 := processConds_append rest (ps ++ (processRule r []).2)
      have h3 := processConds_append rest (processRule r []).2
      simp only [processConds, h1, h2, h3]
      simp

end

theorem processConds_fst (rs : List Rule) (ps : List Param) :
    (processConds rs ps).1 = rs.map (fun r => (processRule r []).1) := by
  induction rs generalizing ps with
  | nil => simp [processConds]
  | cons r rest ih =>
      simp only [processConds, List.map_cons]
      rw [processRule_append r ps]
      simp [ih]

theorem countPlaceholders_append (a b : String) :
    countPlaceholders (a ++ b) = countPlaceholders a + countPlaceholders b := by
  simp [countPlaceholders, String.toList, String.data_append, List.countP_append]

theorem paren_ne_empty (s : String) : "(" ++ s ++ ")" ≠ "" := by
  intro h
  have h2 := congrArg String.length h
  simp [String.length_append] at h2
  exact absurd h2.1.1 (by decide)

theorem countPlaceholders_joinSep (sep : String) (hsep : countPlaceholders sep = 0)
    (ss : List String) :
    countPlaceholders (joinSep sep ss) = (ss.map countPlaceholders).sum := by
  induction ss with
  | nil => simp [joinSep]; rfl
  | cons s rest ih =>
      cases rest with
      | nil => simp [joinSep]
      | cons t ts =>
          have hj : joinSep sep (s :: t :: ts) = s ++ sep ++ joinSep sep (t :: ts) := rfl
          rw [hj, countPlaceholders_append, countPlaceholders_append, hsep, ih]
          simp [List.map_cons, List.sum_cons]

theorem sum_countPlaceholders_filter (ss : List String) :
    ((ss.filter (fun s => s != "")).map countPlaceholders).sum
      = (ss.map countPlaceholders).sum := by
  induction ss with
  | nil => simp
  | cons s rest ih =>
      by_cases h : s = ""
      · subst h
        simpa [countPlaceholders] using ih
      · simp [List.filter_cons, h, ih]

mutual

theorem processRule_ph (r : Rule) :
    countPlaceholders (processRule r []).1 = (processRule r []).2.length ∧
    ((processRule r []).1 = "" → (processRule r []).2 = []) := by
  cases r with
  | cond f o v =>
      have h := condLeaf_spec f o v
      simpa [processRule] using h
  | comp op conds =>
      by_cases hop : op = "AND" ∨ op = "OR"
      · have hl := processConds_ph conds
        have hsep : countPlaceholders (" " ++ op ++ " ") = 0 := by
          rcases hop with h | h <;> subst h <;> decide
        simp only [processRule, hop, if_true]
        split
        · constructor
          · rw [countPlaceholders_append, countPlaceholders_append,
                countPlaceholders_joinSep _ hsep, sum_countPlaceholders_filter]
            have hz1 : countPlaceholders "(" = 0 := by decide
            have hz2 : countPlaceholders ")" = 0 := by decide
            rw [hz1, hz2, hl.1]
            simp
          · intro h
            exact absurd h (paren_ne_empty _)
        · rename_i hlen
          have hkept : (processConds conds []).1.filter (fun s => s != "") = [] := by
            have := Nat.eq_zero_of_not_pos hlen
            exact List.length_eq_zero.mp this
          have hall : ∀ s ∈ (processConds conds []).1, s = "" := by
            intro s hs
            have := List.filter_eq_nil_iff.mp hkept s hs
            simpa using this
          have hnil := hl.2 hall
          constructor
          · simp [hnil]
            decide
          · intro _
            exact hnil
      · simp [processRule, hop]
        decide

theorem processConds_ph (rs : List Rule) :
    (((processConds rs []).1).map countPlaceholders).sum = (processConds rs []).2.length ∧
    ((∀ s ∈ (processConds rs []).1, s = "") → (processConds rs []).2 = []) := by
  cases rs with
  | nil =>
      constructor
      · simp [processConds]
      · intro _; simp [processConds]
  | cons r rest =>
      have hr := processRule_ph r
      have hrest := processConds_ph rest
      have hacc := processConds_append rest (processRule r []).2
      constructor
      · simp only [processConds, hacc, List.map_cons, List.sum_cons, List.length_append]
        rw [hr.1, hrest.1]
      · intro hall
        simp only [processConds, hacc]
        have h1 : (processRule r []).1 = "" := by
          apply hall
          simp [processConds, hacc]
        have h2 : ∀ s ∈ (processConds rest []).1, s = "" := by
          intro s hs
          apply hall
          simp [processConds, hacc]
          right
          exact hs
        simp [hr.2 h1, hrest.2 h2]

end

mutual

theorem processRule_params (r : Rule) : (processRule r []).2 = leafParamsDF r := by
  cases r with
  | cond f o v => simp [processRule, leafParamsDF]
  | comp op conds =>
      by_cases hop : op = "AND" ∨ op = "OR"
      · have hl := processConds_params conds
        simp only [processRule, leafParamsDF, hop, if_true]
        split <;> simpa using hl
      · simp [processRule, leafParamsDF, hop]

theorem processConds_params (rs : List Rule) :
    (processConds rs []).2 = leafParamsDFList rs := by
  cases rs with
  | nil => simp [processConds, leafParamsDFList]
  | cons r rest =>
      have h1 := processRule_params r
      have h2 := processConds_params rest
      have hacc := processConds_append rest (processRule r []).2
      simp only [processConds, leafParamsDFList]
      rw [hacc]
      simp [h1, h2]

end

mutual

theorem leafParamsDF_length_slots (r : Rule) : (leafParamsDF r).length = totalSlots r := by
  cases r with
  | cond f o v =>
      simpa [leafParamsDF, totalSlots] using condLeaf_length_slots f o v
  | comp op conds =>
      by_cases hop : op = "AND" ∨ op = "OR"
      · simpa [leafParamsDF, totalSlots, hop] using leafParamsDFList_length_slots conds
      · simp [leafParamsDF, totalSlots, hop]

theorem leafParamsDFList_length_slots (rs : List Rule) :
    (leafParamsDFList rs).length = totalSlotsList rs := by
  cases rs with
  | nil => simp [leafParamsDFList, totalSlotsList]
  | cons r rest =>
      simp [leafParamsDFList, totalSlotsList, leafParamsDF_length_slots r,
        leafParamsDFList_length_slots rest]

end

/-- C3: the claim as stated fails on the code: a `between` leaf is one
retained leaf condition but pushes two parameters.  Evaluated at the
single-leaf tree `{field: total_spent, operator: between, value:
{min: 10, max: 20}}`. -/
theorem C3_counterexample :
    retainedLeafCount
        (.cond "total_spent" "between" (.obj [("min", .num 10), ("max", .num 20)])) = 1 ∧
    (buildSegmentQuery
        (.cond "total_spent" "between"
          (.obj [("min", .num 10), ("max", .num 20)]))).params.length = 2 ∧
    (1 : Nat) ≠ 2 := by
  refine ⟨rfl, rfl, by decide⟩

/-- C3 (amended): for every rule tree, the compiled parameter list's length
equals the total number of parameter slots of the retained leaf
conditions, where a `between` leaf contributes two slots, an `is_null`
leaf zero, and every other supported leaf one. -/
theorem C3_amended_param_count (r : Rule) :
    (buildSegmentQuery r).params.length = totalSlots r := by
  have h1 := processRule_params r
  have h2 := leafParamsDF_length_slots r
  simp [buildSegmentQuery, h1, h2]

/-- C8: a composite node with operator `AND`/`OR` compiles every child,
drops exactly the children whose compiled expression is empty, joins the
survivors with the operator wrapped in parentheses, and compiles to the
empty expression when no child survives. -/
theorem C8_composite_compilation (op : String) (conds : List Rule)
    (hop : op = "AND" ∨ op = "OR") :
    (processRule (.comp op conds) []).1 =
      (if (conds.map (fun c => (processRule c []).1)).filter (fun s => s != "") = []
       then ""
       else "(" ++ joinSep (" " ++ op ++ " ")
         ((conds.map (fun c => (processRule c []).1)).filter (fun s => s != "")) ++ ")") := by
  have hfst := processConds_fst conds ([] : List Param)
  simp only [processRule, hop, if_true, hfst]
  by_cases hk : (conds.map (fun c => (processRule c []).1)).filter (fun s => s != "") = []
  · simp [hk]
  · have hpos : 0 < ((conds.map (fun c => (processRule c []).1)).filter
        (fun s => s != "")).length := List.length_pos.mpr hk
    simp [hk, hpos]

/-- C8 witness: an `AND` composite of a supported leaf and an unsupported
leaf keeps only the supported child's comparison. -/
theorem C8_witness :
    (processRule (.comp "AND"
      [.cond "status" "equals" (.str "active"),
       .cond "status" "greater_than" (.num 5)]) []).1 =
      (if ([("status = ?" : String), ""].filter (fun s => s != "")) = []
       then ""
       else "(" ++ joinSep " AND " ([("status = ?" : String), ""].filter (fun s => s != "")) ++ ")") := by
  have h := C8_composite_compilation "AND"
    [.cond "status" "equals" (.str "active"), .cond "status" "greater_than" (.num 5)]
    (Or.inl rfl)
  exact h

/-- C9: the compiled parameter list is exactly the concatenation of the
leaves' parameters in left-to-right depth-first emission order, and the
number of `?` placeholders in the compiled expression equals the length of
the parameter list. -/
theorem C9_emission_order_and_placeholders (r : Rule) :
    (buildSegmentQuery r).params = leafParamsDF r ∧
    countPlaceholders (buildSegmentQuery r).query = (buildSegmentQuery r).params.length := by
  refine ⟨?_, ?_⟩
  · simpa [buildSegmentQuery] using processRule_params r
  · simpa [buildSegmentQuery] using (processRule_ph r).1

/-- C10: an `is_null` leaf on `last_visit` compiles to the empty expression
when its `value` is `undefined` (the guard fires before the operator
dispatch), and emits `last_visit IS NULL` with no parameters whenever any
defined value is present. -/
theorem C10_is_null_requires_defined_value :
    processRule (.cond "last_visit" "is_null" .undefined) [] = ("", []) ∧
    (∀ v : JSVal, v.isUndefined = false →
      processRule (.cond "last_visit" "is_null" v) [] = ("last_visit IS NULL", [])) := by
  constructor
  · rfl
  · intro v h
    cases v with
    | undefined => exact absurd h (by decide)
    | num n => rfl
    | str s => rfl
    | obj fs => rfl

/-- C10 witness: the defined value `0` makes the `is_null` leaf compile. -/
theorem C10_witness :
    processRule (.cond "last_visit" "is_null" (.num 0)) [] = ("last_visit IS NULL", []) :=
  C10_is_null_requires_defined_value.2 (.num 0) rfl

/-- C5: a rule tree whose root compiles to the empty expression is rejected
with a validation failure both by segment creation and by segment
preview. -/
theorem C5_empty_root_rejected (req : SegmentRequest) (g1 g2 : CompiledQuery → Nat)
    (h : (buildSegmentQuery req.rules).query = "") :
    (createSegmentHandler req g1).isBadRequest = true ∧
    (previewSegmentHandler (some req.rules) g2).isBadRequest = true := by
  constructor
  · unfold createSegmentHandler
    split
    · rfl
    · simp [h, ApiResult.isBadRequest]
  · unfold previewSegmentHandler
    simp [h, ApiResult.isBadRequest]

/-- C5 witness: a leaf with an unsupported field compiles to the empty
expression, and both endpoints reject it. -/
theorem C5_witness :
    (buildSegmentQuery (Rule.cond "nickname" "equals" (.str "x"))).query = "" ∧
    (createSegmentHandler
        { name := "vip customers", rules := .cond "nickname" "equals" (.str "x") }
        (fun _ => 0)).isBadRequest = true ∧
    (previewSegmentHandler (some (.cond "nickname" "equals" (.str "x")))
        (fun _ => 0)).isBadRequest = true :=
  ⟨rfl, C5_empty_root_rejected
    { name := "vip customers", rules := .cond "nickname" "equals" (.str "x") }
    (fun _ => 0) (fun _ => 0) rfl⟩

theorem updateMessage_campaigns (db : Db) (mid : Nat) (f : Message → Message) :
    (updateMessage db mid f).campaigns = db.campaigns := rfl

theorem markCampaignSent_messages (db : Db) (cid : Nat) :
    (markCampaignSent db cid).messages = db.messages := rfl

theorem markCampaignFailed_messages (db : Db) (cid : Nat) :
    (markCampaignFailed db cid).messages = db.messages := rfl

theorem markCampaignSent_mem (db : Db) (cid : Nat) (c : Campaign)
    (hc : c ∈ (markCampaignSent db cid).campaigns) (hid : c.id = cid) :
    c.status = .sent ∧ c.sent_at_set = true := by
  simp only [markCampaignSent, List.mem_map] at hc
  obtain ⟨a, _, ha⟩ := hc
  by_cases h : a.id = cid
  · simp [h] at ha
    subst ha
    exact ⟨rfl, rfl⟩
  · simp [h] at ha
    subst ha
    exact absurd hid h

theorem markCampaignFailed_mem (db : Db) (cid : Nat) (c : Campaign)
    (hc : c ∈ (markCampaignFailed db cid).campaigns) (hid : c.id = cid) :
    c.status = .failed := by
  simp only [markCampaignFailed, List.mem_map] at hc
  obtain ⟨a, _, ha⟩ := hc
  by_cases h : a.id = cid
  · simp [h] at ha
    subst ha
    rfl
  · simp [h] at ha
    subst ha
    exact absurd hid h

theorem sendLogs_campaigns (env : DispatchEnv) :
    ∀ (logs : List Message) (k : Nat) (db : Db),
      (sendLogs env logs k db).campaigns = db.campaigns := by
  intro logs
  induction logs with
  | nil => intro k db; rfl
  | cons log rest ih =>
      intro k db
      simp only [sendLogs]
      split <;> exact ih (k + 1) _

theorem totalCount_updateMessage (db : Db) (cid mid : Nat) (f : Message → Message)
    (hf : ∀ m, (f m).campaign_id = m.campaign_id) :
    totalCount (updateMessage db mid f) cid = totalCount db cid := by
  simp only [totalCount, campaignMessages, updateMessage]
  rw [← List.countP_eq_length_filter, ← List.countP_eq_length_filter, List.countP_map]
  apply List.countP_congr
  intro m _
  by_cases h : m.id = mid <;> simp [h, hf]

theorem sendLogs_totalCount (env : DispatchEnv) (cid : Nat) :
    ∀ (logs : List Message) (k : Nat) (db : Db),
      totalCount (sendLogs env logs k db) cid = totalCount db cid := by
  intro logs
  induction logs with
  | nil => intro k db; rfl
  | cons log rest ih =>
      intro k db
      simp only [sendLogs]
      split <;>
        · rw [ih]
          exact totalCount_updateMessage _ _ _ _ (fun m => rfl)

theorem insertPending_ok (env : DispatchEnv) (cid : Nat) (tmpl : String)
    (hins : ∀ k, env.insertFails k = false) :
    ∀ (cs : List Customer) (k : Nat) (db : Db),
    ∃ logs,
      insertPendingMessages env cid tmpl cs k db =
        ({ campaigns := db.campaigns,
           messages := db.messages ++ logs,
           nextMessageId := db.nextMessageId + cs.length }, .ok logs) ∧
      logs.length = cs.length ∧
      (∀ m ∈ logs, m.campaign_id = cid ∧ m.status = MsgStatus.pending) ∧
      logs.map (fun m => m.customer_id) = cs.map (fun c => c.id) := by
  intro cs
  induction cs with
  | nil =>
      intro k db
      refine ⟨[], ?_, rfl, by simp, rfl⟩
      simp [insertPendingMessages]
  | cons c rest ih =>
      intro k db
      obtain ⟨logs, heq, hlen, hmem, hcust⟩ := ih (k + 1)
        { campaigns := db.campaigns,
          messages := db.messages ++ [pendingMessage cid tmpl c db.nextMessageId],
          nextMessageId := db.nextMessageId + 1 }
      refine ⟨pendingMessage cid tmpl c db.nextMessageId :: logs, ?_, ?_, ?_, ?_⟩
      · simp only [insertPendingMessages, hins k, if_false, Bool.false_eq_true]
        rw [heq]
        simp [List.append_assoc]
        omega
      · simp [hlen]
      · intro m hm
        rcases List.mem_cons.mp hm with h | h
        · subst h; exact ⟨rfl, rfl⟩
        · exact hmem m h
      · simp [hcust, pendingMessage]

theorem insertPending_fail (env : DispatchEnv) (cid : Nat) (tmpl : String) :
    ∀ (cs : List Customer) (base : Nat) (db : Db) (j : Nat),
    (∀ i, i < j → env.insertFails (base + i) = false) →
    env.insertFails (base + j) = true →
    j < cs.length →
    ∃ db2 created,
      insertPendingMessages env cid tmpl cs base db = (db2, .error "Persistence failure") ∧
      db2.campaigns = db.campaigns ∧
      db2.messages = db.messages ++ created ∧
      created.length = j ∧
      (∀ m ∈ created, m.campaign_id = cid ∧ m.status = MsgStatus.pending) ∧
      created.map (fun m => m.customer_id) = (cs.take j).map (fun c => c.id) := by
  intro cs
  induction cs with
  | nil =>
      intro base db j _ _ hlt
      exact absurd hlt (by simp)
  | cons c rest ih =>
      intro base db j hpre hj hlt
      cases j with
      | zero =>
          refine ⟨db, [], ?_, rfl, by simp, rfl, by simp, by simp⟩
          simp only [insertPendingMessages]
          rw [show base + 0 = base from rfl] at hj
          simp [hj]
      | succ i =>
          have h0 : env.insertFails base = false := by
            have := hpre 0 (Nat.succ_pos i)
            simpa using this
          obtain ⟨db2, created, heq, hcamp, hmsg, hlen, hmem, hcust⟩ :=
            ih (base + 1)
              { campaigns := db.campaigns,
                messages := db.messages ++ [pendingMessage cid tmpl c db.nextMessageId],
                nextMessageId := db.nextMessageId + 1 }
              i
              (fun i2 hi2 => by
                have := hpre (i2 + 1) (Nat.succ_lt_succ hi2)
                simpa [Nat.add_assoc, Nat.add_comm 1 i2] using this)
              (by
                have : base + 1 + i = base + (i + 1) := by omega
                rw [this]
                exact hj)
              (by simpa using Nat.lt_of_succ_lt_succ hlt)
          refine ⟨db2, pendingMessage cid tmpl c db.nextMessageId :: created, ?_, ?_, ?_, ?_, ?_, ?_⟩
          · simp only [insertPendingMessages, h0, if_false, Bool.false_eq_true]
            rw [heq]
          · simpa using hcamp
          · rw [hmsg]
            simp [List.append_assoc]
          · simp [hlen]
          · intro m hm
            rcases List.mem_cons.mp hm with h | h
            · subst h; exact ⟨rfl, rfl⟩
            · exact hmem m h
          · simp [hcust, pendingMessage]

theorem sendLogs_status (env : DispatchEnv) (cid : Nat) :
    ∀ (logs : List Message) (k : Nat) (db : Db),
    (∀ m ∈ db.messages, m.campaign_id = cid →
        m.status = MsgStatus.sent ∨ m.status = MsgStatus.failed ∨
        m.id ∈ logs.map (fun l => l.id)) →
    ∀ m ∈ (sendLogs env logs k db).messages, m.campaign_id = cid →
      m.status = MsgStatus.sent ∨ m.status = MsgStatus.failed := by
  intro logs
  induction logs with
  | nil =>
      intro k db h m hm hc
      rcases h m hm hc with h1 | h2 | h3
      · exact Or.inl h1
      · exact Or.inr h2
      · simp at h3
  | cons log rest ih =>
      intro k db h
      simp only [sendLogs]
      by_cases hsend : env.sendOk k = true
      all_goals simp only [hsend, if_true, if_false, Bool.false_eq_true]
      · apply ih (k + 1)
        intro m hm hc
        simp only [updateMessage, List.mem_map] at hm
        obtain ⟨m0, hm0, hm0eq⟩ := hm
        by_cases hid : m0.id = log.id
        · simp only [hid, if_true] at hm0eq
          subst hm0eq
          exact Or.inl rfl
        · simp only [hid, if_false] at hm0eq
          subst hm0eq
          rcases h m0 hm0 hc with h1 | h2 | h3
          · exact Or.inl h1
          · exact Or.inr (Or.inl h2)
          · simp only [List.map_cons, List.mem_cons] at h3
            rcases h3 with h3 | h3
            · exact absurd h3 hid
            · exact Or.inr (Or.inr (by simpa using h3))
      · apply ih (k + 1)
        intro m hm hc
        simp only [updateMessage, List.mem_map] at hm
        obtain ⟨m0, hm0, hm0eq⟩ := hm
        by_cases hid : m0.id = log.id
        · simp only [hid, if_true] at hm0eq
          subst hm0eq
          exact Or.inr (Or.inl rfl)
        · simp only [hid, if_false] at hm0eq
          subst hm0eq
          rcases h m0 hm0 hc with h1 | h2 | h3
          · exact Or.inl h1
          · exact Or.inr (Or.inl h2)
          · simp only [List.map_cons, List.mem_cons] at h3
            rcases h3 with h3 | h3
            · exact absurd h3 hid
            · exact Or.inr (Or.inr (by simpa using h3))

theorem sendCampaign_noseg (env : DispatchEnv) (cid : Nat) (tmpl : String) (db : Db)
    (hseg : env.segmentRules = none) :
    sendCampaignMessages env cid tmpl db
      = (markCampaignFailed db cid, .error "Segment not found") := by
  unfold sendCampaignMessages
  rw [hseg]

theorem sendCampaign_err_shape (env : DispatchEnv) (cid : Nat) (tmpl : String) (db : Db)
    (rules : Rule) (hseg : env.segmentRules = some rules) (db1 : Db) (e : String)
    (hins : insertPendingMessages env cid tmpl
        (env.audienceOf (buildSegmentQuery rules)) 0 db = (db1, .error e)) :
    sendCampaignMessages env cid tmpl db = (markCampaignFailed db1 cid, .error e) := by
  unfold sendCampaignMessages
  rw [hseg]
  simp only
  rw [hins]

theorem sendCampaign_ok_shape (env : DispatchEnv) (cid : Nat) (tmpl : String) (db : Db)
    (rules : Rule) (hseg : env.segmentRules = some rules) (db1 : Db) (logs : List Message)
    (hins : insertPendingMessages env cid tmpl
        (env.audienceOf (buildSegmentQuery rules)) 0 db = (db1, .ok logs)) :
    sendCampaignMessages env cid tmpl db
      = (markCampaignSent (sendLogs env logs 0 db1) cid, .ok logs.length) := by
  unfold sendCampaignMessages
  rw [hseg]
  simp only
  rw [hins]

theorem count_partition_list :
    ∀ (l : List Message),
    (∀ m ∈ l, m.status = MsgStatus.sent ∨ m.status = MsgStatus.failed) →
    (l.filter (fun m => m.status == MsgStatus.sent)).length
      + (l.filter (fun m => m.status == MsgStatus.failed)).length = l.length := by
  intro l
  induction l with
  | nil => intro _; simp
  | cons m rest ih =>
      intro h
      have hrest := ih (fun m2 hm2 => h m2 (List.mem_cons_of_mem m hm2))
      rcases h m (List.mem_cons_self m rest) with h1 | h1 <;>
        simp [List.filter_cons, h1, hrest] <;> omega

theorem statusCounts_partition (db : Db) (cid : Nat)
    (h : ∀ m ∈ campaignMessages db cid,
        m.status = MsgStatus.sent ∨ m.status = MsgStatus.failed) :
    statusCount db cid .sent + statusCount db cid .failed = totalCount db cid := by
  unfold statusCount totalCount
  exact count_partition_list _ h

theorem totalCount_append_fresh (camps : List Campaign) (pre logs : List Message)
    (nid cid : Nat)
    (hfresh : ∀ m ∈ pre, m.campaign_id ≠ cid)
    (hlogs : ∀ m ∈ logs, m.campaign_id = cid) :
    totalCount { campaigns := camps, messages := pre ++ logs, nextMessageId := nid } cid
      = logs.length := by
  unfold totalCount campaignMessages
  simp only [List.filter_append, List.length_append]
  have h1 : pre.filter (fun m => m.campaign_id == cid) = [] := by
    apply List.filter_eq_nil_iff.mpr
    intro m hm
    simpa using hfresh m hm
  have h2 : logs.filter (fun m => m.campaign_id == cid) = logs := by
    apply List.filter_eq_self.mpr
    intro m hm
    simpa using hlogs m hm
  simp [h1, h2]

/-- C1 (amended): when the overall dispatch step does not raise, the
dispatch loop itself sets the Campaign status to `sent` and stamps
`sent_at` after attempting all messages; it does not leave the campaign
`sending` for the receipt reconciler. -/
theorem C1_amended_dispatch_sets_sent (env : DispatchEnv) (cid : Nat) (tmpl : String)
    (db : Db) (n : Nat)
    (h : (sendCampaignMessages env cid tmpl db).2 = .ok n) :
    ∀ c ∈ (sendCampaignMessages env cid tmpl db).1.campaigns,
      c.id = cid → c.status = CampaignStatus.sent ∧ c.sent_at_set = true := by
  cases hseg : env.segmentRules with
  | none =>
      rw [sendCampaign_noseg env cid tmpl db hseg] at h
      simp at h
  | some rules =>
      cases hins : insertPendingMessages env cid tmpl
          (env.audienceOf (buildSegmentQuery rules)) 0 db with
      | mk db1 res =>
          cases res with
          | error e =>
              rw [sendCampaign_err_shape env cid tmpl db rules hseg db1 e hins] at h
              simp at h
          | ok logs =>
              rw [sendCampaign_ok_shape env cid tmpl db rules hseg db1 logs hins]
              intro c hc hcid
              exact markCampaignSent_mem _ cid c hc hcid

/-- Environment of the C1 counterexample: an existing segment whose
audience is one customer, a vendor that accepts every message, and a
store that never fails. -/
def envC1 : DispatchEnv :=
  { segmentRules := some (.cond "status" "equals" (.str "active")),
    audienceOf := fun _ => [{ id := 7, name := "Ada", email := "ada", total_spent := "100" }],
    sendOk := fun _ => true,
    insertFails := fun _ => false }

/-- Initial state of the C1 counterexample: campaign 1 in `sending`. -/
def dbC1 : Db :=
  { campaigns := [{ id := 1, status := .sending, sent_at_set := false }],
    messages := [], nextMessageId := 1 }

/-- C1: the claim fails on the code: after a fully successful dispatch the
campaign is `sent`, not left `sending` — `sendCampaignMessages` itself runs
`UPDATE campaigns SET status = "sent", sent_at = CURRENT_TIMESTAMP`. -/
theorem C1_counterexample :
    campaignStatusOf dbC1 1 = some CampaignStatus.sending ∧
    campaignStatusOf (sendCampaignMessages envC1 1 "Welcome to our rewards program" dbC1).1 1
      = some CampaignStatus.sent ∧
    CampaignStatus.sent ≠ CampaignStatus.sending := by
  refine ⟨rfl, rfl, by decide⟩

/-- C1 amended witness: applied to the concrete successful dispatch of the
counterexample environment, instantiated at the resulting campaign row. -/
theorem C1_witness :
    ({ id := 1, status := CampaignStatus.sent, sent_at_set := true } : Campaign).status
        = CampaignStatus.sent ∧
    ({ id := 1, status := CampaignStatus.sent, sent_at_set := true } : Campaign).sent_at_set
        = true :=
  C1_amended_dispatch_sets_sent envC1 1 "Welcome to our rewards program" dbC1 1 rfl
    { id := 1, status := CampaignStatus.sent, sent_at_set := true } (by decide) rfl

theorem totalCount_markCampaignSent (db : Db) (cid cid2 : Nat) :
    totalCount (markCampaignSent db cid2) cid = totalCount db cid := rfl

theorem statusCount_markCampaignSent (db : Db) (cid cid2 : Nat) (st : MsgStatus) :
    statusCount (markCampaignSent db cid2) cid st = statusCount db cid st := rfl

/-- C6: with a live segment and a store that never fails, dispatch creates
one `pending` message per audience member — all `N` rows exist and are
`pending` before any send is attempted — and after the dispatch loop every
one of the campaign's `N` messages is `sent` or `failed`, with
`sent + failed = N`. -/
theorem C6_dispatch_counts (env : DispatchEnv) (cid : Nat) (tmpl : String) (db : Db)
    (rules : Rule)
    (hseg : env.segmentRules = some rules)
    (hinsOk : ∀ k, env.insertFails k = false)
    (hfresh : ∀ m ∈ db.messages, m.campaign_id ≠ cid) :
    ∃ db1 logs,
      insertPendingMessages env cid tmpl (env.audienceOf (buildSegmentQuery rules)) 0 db
        = (db1, .ok logs) ∧
      logs.length = (env.audienceOf (buildSegmentQuery rules)).length ∧
      logs.map (fun m => m.customer_id)
        = (env.audienceOf (buildSegmentQuery rules)).map (fun c => c.id) ∧
      totalCount db1 cid = (env.audienceOf (buildSegmentQuery rules)).length ∧
      (∀ m ∈ db1.messages, m.campaign_id = cid → m.status = MsgStatus.pending) ∧
      totalCount (sendCampaignMessages env cid tmpl db).1 cid
        = (env.audienceOf (buildSegmentQuery rules)).length ∧
      (∀ m ∈ (sendCampaignMessages env cid tmpl db).1.messages,
          m.campaign_id = cid → m.status = MsgStatus.sent ∨ m.status = MsgStatus.failed) ∧
      statusCount (sendCampaignMessages env cid tmpl db).1 cid .sent
        + statusCount (sendCampaignMessages env cid tmpl db).1 cid .failed
        = (env.audienceOf (buildSegmentQuery rules)).length := by
  obtain ⟨logs, heq, hlen, hmem, hcust⟩ :=
    insertPending_ok env cid tmpl hinsOk (env.audienceOf (buildSegmentQuery rules)) 0 db
  have hlogscid : ∀ m ∈ logs, m.campaign_id = cid := fun m hm => (hmem m hm).1
  have htot1 : totalCount
      { campaigns := db.campaigns, messages := db.messages ++ logs,
        nextMessageId := db.nextMessageId + (env.audienceOf (buildSegmentQuery rules)).length }
      cid = logs.length :=
    totalCount_append_fresh _ _ _ _ _ hfresh hlogscid
  have hshape := sendCampaign_ok_shape env cid tmpl db rules hseg _ logs heq
  have hfst : (sendCampaignMessages env cid tmpl db).1
      = markCampaignSent (sendLogs env logs 0
          { campaigns := db.campaigns, messages := db.messages ++ logs,
            nextMessageId := db.nextMessageId
              + (env.audienceOf (buildSegmentQuery rules)).length }) cid := by
    rw [hshape]
  have hstatus : ∀ m ∈ (sendCampaignMessages env cid tmpl db).1.messages,
      m.campaign_id = cid → m.status = MsgStatus.sent ∨ m.status = MsgStatus.failed := by
    rw [hfst, markCampaignSent_messages]
    apply sendLogs_status env cid logs 0
    intro m hm hc
    rcases List.mem_append.mp hm with h | h
    · exact absurd hc (hfresh m h)
    · exact Or.inr (Or.inr (List.mem_map_of_mem (fun l => l.id) h))
  have htotF : totalCount (sendCampaignMessages env cid tmpl db).1 cid
      = (env.audienceOf (buildSegmentQuery rules)).length := by
    rw [hfst, totalCount_markCampaignSent, sendLogs_totalCount, htot1, hlen]
  refine ⟨_, logs, heq, hlen, hcust, ?_, ?_, htotF, hstatus, ?_⟩
  · rw [htot1, hlen]
  · intro m hm hc
    rcases List.mem_append.mp hm with h | h
    · exact absurd hc (hfresh m h)
    · exact (hmem m h).2
  · have hpart := statusCounts_partition (sendCampaignMessages env cid tmpl db).1 cid ?_
    · rw [hpart, htotF]
    · intro m hm
      have hmem2 := List.mem_filter.mp hm
      exact hstatus m hmem2.1 (by simpa using hmem2.2)

/-- Environment of the C6 witness: two matched customers, the vendor
accepting only the first message. -/
def envC6 : DispatchEnv :=
  { segmentRules := some (.cond "total_spent" "greater_than" (.num 50)),
    audienceOf := fun _ =>
      [{ id := 1, name := "Ann", email := "a", total_spent := "60" },
       { id := 2, name := "Ben", email := "b", total_spent := "70" }],
    sendOk := fun k => k == 0,
    insertFails := fun _ => false }

/-- Initial state of the C6 witness: campaign 9 with no messages. -/
def dbC6 : Db :=
  { campaigns := [{ id := 9, status := .sending, sent_at_set := false }],
    messages := [], nextMessageId := 1 }

/-- C6 witness: the dispatch invariants instantiated on the concrete
two-customer environment. -/
theorem C6_witness :
    ∃ db1 logs,
      insertPendingMessages envC6 9 "Hello valued customer"
          (envC6.audienceOf (buildSegmentQuery (.cond "total_spent" "greater_than" (.num 50)))) 0 dbC6
        = (db1, .ok logs) ∧
      logs.length = (envC6.audienceOf
          (buildSegmentQuery (.cond "total_spent" "greater_than" (.num 50)))).length ∧
      logs.map (fun m => m.customer_id)
        = (envC6.audienceOf
            (buildSegmentQuery (.cond "total_spent" "greater_than" (.num 50)))).map (fun c => c.id) ∧
      totalCount db1 9 = (envC6.audienceOf
          (buildSegmentQuery (.cond "total_spent" "greater_than" (.num 50)))).length ∧
      (∀ m ∈ db1.messages, m.campaign_id = 9 → m.status = MsgStatus.pending) ∧
      totalCount (sendCampaignMessages envC6 9 "Hello valued customer" dbC6).1 9
        = (envC6.audienceOf
            (buildSegmentQuery (.cond "total_spent" "greater_than" (.num 50)))).length ∧
      (∀ m ∈ (sendCampaignMessages envC6 9 "Hello valued customer" dbC6).1.messages,
          m.campaign_id = 9 → m.status = MsgStatus.sent ∨ m.status = MsgStatus.failed) ∧
      statusCount (sendCampaignMessages envC6 9 "Hello valued customer" dbC6).1 9 .sent
        + statusCount (sendCampaignMessages envC6 9 "Hello valued customer" dbC6).1 9 .failed
        = (envC6.audienceOf
            (buildSegmentQuery (.cond "total_spent" "greater_than" (.num 50)))).length :=
  C6_dispatch_counts envC6 9 "Hello valued customer" dbC6
    (.cond "total_spent" "greater_than" (.num 50)) rfl (fun _ => rfl)
    (fun m hm => absurd hm (List.not_mem_nil m))

/-- C7: when a persistence operation raises midway through the insert loop
(after `j` rows), the remaining batch is aborted, the campaign is marked
`failed`, and the `j` already-created rows remain persisted, still
`pending`, one per prior customer. -/
theorem C7_persistence_failure (env : DispatchEnv) (cid : Nat) (tmpl : String) (db : Db)
    (rules : Rule) (j : Nat)
    (hseg : env.segmentRules = some rules)
    (hpre : ∀ i, i < j → env.insertFails i = false)
    (hj : env.insertFails j = true)
    (hlt : j < (env.audienceOf (buildSegmentQuery rules)).length) :
    ∃ created,
      (sendCampaignMessages env cid tmpl db).2 = .error "Persistence failure" ∧
      (∀ c ∈ (sendCampaignMessages env cid tmpl db).1.campaigns,
          c.id = cid → c.status = CampaignStatus.failed) ∧
      (sendCampaignMessages env cid tmpl db).1.messages = db.messages ++ created ∧
      created.length = j ∧
      (∀ m ∈ created, m.campaign_id = cid ∧ m.status = MsgStatus.pending) ∧
      created.map (fun m => m.customer_id)
        = ((env.audienceOf (buildSegmentQuery rules)).take j).map (fun c => c.id) := by
  obtain ⟨db2, created, heq, hcamp, hmsg, hlen2, hmem2, hcust2⟩ :=
    insertPending_fail env cid tmpl (env.audienceOf (buildSegmentQuery rules)) 0 db j
      (fun i hi => by simpa using hpre i hi) (by simpa using hj) hlt
  have hshape := sendCampaign_err_shape env cid tmpl db rules hseg db2 _ heq
  refine ⟨created, ?_, ?_, ?_, hlen2, hmem2, hcust2⟩
  · rw [hshape]
  · rw [hshape]
    intro c hc hcid
    exact markCampaignFailed_mem db2 cid c hc hcid
  · rw [hshape]
    show (markCampaignFailed db2 cid).messages = db.messages ++ created
    rw [markCampaignFailed_messages, hmsg]

/-- Environment of the C7 witness: three matched customers, the store
failing on the second `INSERT`. -/
def envC7 : DispatchEnv :=
  { segmentRules := some (.cond "status" "equals" (.str "active")),
    audienceOf := fun _ =>
      [{ id := 1, name := "Ann", email := "a", total_spent := "60" },
       { id := 2, name := "Ben", email := "b", total_spent := "70" },
       { id := 3, name := "Cam", email := "c", total_spent := "80" }],
    sendOk := fun _ => true,
    insertFails := fun k => k != 0 }

/-- C7 witness: the partial-failure contract instantiated on the concrete
environment whose second insert fails. -/
theorem C7_witness :
    ∃ created,
      (sendCampaignMessages envC7 4 "Thanks for shopping with us" dbC1).2
        = .error "Persistence failure" ∧
      (∀ c ∈ (sendCampaignMessages envC7 4 "Thanks for shopping with us" dbC1).1.campaigns,
          c.id = 4 → c.status = CampaignStatus.failed) ∧
      (sendCampaignMessages envC7 4 "Thanks for shopping with us" dbC1).1.messages
        = dbC1.messages ++ created ∧
      created.length = 1 ∧
      (∀ m ∈ created, m.campaign_id = 4 ∧ m.status = MsgStatus.pending) ∧
      created.map (fun m => m.customer_id)
        = ((envC7.audienceOf
            (buildSegmentQuery (.cond "status" "equals" (.str "active")))).take 1).map
              (fun c => c.id) :=
  C7_persistence_failure envC7 4 "Thanks for shopping with us" dbC1
    (.cond "status" "equals" (.str "active")) 1 rfl
    (fun i hi => by
      have h0 : i = 0 := by omega
      subst h0
      rfl)
    rfl (by decide)

/-- The row transformation the delivery-receipt handler applies to the
matched message, as a function of the receipt. -/
def receiptUpdateFn (r : Receipt) : Message → Message :=
  fun m =>
    if r.status = "delivered" then
      { m with status := .delivered, vendor_message_id := r.vendor_message_id }
    else if r.status = "failed" then
      { m with status := .failed,
               failure_reason := some (r.failure_reason.getD "Unknown error") }
    else m

theorem receiptMessagePhase_eq (db : Db) (r : Receipt) :
    receiptMessagePhase db r = updateMessage db r.message_id (receiptUpdateFn r) := by
  unfold receiptMessagePhase receiptUpdateFn updateMessage
  by_cases h1 : r.status = "delivered"
  · simp [h1]
  · by_cases h2 : r.status = "failed"
    · simp [h1, h2]
    · simp [h1, h2]

theorem receiptUpdateFn_id (r : Receipt) (m : Message) :
    (receiptUpdateFn r m).id = m.id := by
  unfold receiptUpdateFn
  by_cases h1 : r.status = "delivered"
  · simp [h1]
  · by_cases h2 : r.status = "failed" <;> simp [h1, h2]

theorem receiptUpdateFn_campaign (r : Receipt) (m : Message) :
    (receiptUpdateFn r m).campaign_id = m.campaign_id := by
  unfold receiptUpdateFn
  by_cases h1 : r.status = "delivered"
  · simp [h1]
  · by_cases h2 : r.status = "failed" <;> simp [h1, h2]

theorem receiptUpdateFn_idem (r : Receipt) (m : Message) :
    receiptUpdateFn r (receiptUpdateFn r m) = receiptUpdateFn r m := by
  unfold receiptUpdateFn
  by_cases h1 : r.status = "delivered"
  · simp [h1]
  · by_cases h2 : r.status = "failed" <;> simp [h1, h2]

theorem receiptMessagePhase_campaigns (db : Db) (r : Receipt) :
    (receiptMessagePhase db r).campaigns = db.campaigns := by
  rw [receiptMessagePhase_eq]
  rfl

theorem receiptMessagePhase_nextId (db : Db) (r : Receipt) :
    (receiptMessagePhase db r).nextMessageId = db.nextMessageId := by
  rw [receiptMessagePhase_eq]
  rfl

theorem totalCount_receiptMessagePhase (db : Db) (r : Receipt) (cid : Nat) :
    totalCount (receiptMessagePhase db r) cid = totalCount db cid := by
  rw [receiptMessagePhase_eq]
  exact totalCount_updateMessage db cid r.message_id _ (receiptUpdateFn_campaign r)

theorem findMessage_spec (db : Db) (mid : Nat) (log : Message)
    (h : findMessage db mid = some log) :
    log ∈ db.messages ∧ log.id = mid := by
  unfold findMessage at h
  refine ⟨List.mem_of_find?_eq_some h, ?_⟩
  have := List.find?_some h
  simpa using this

theorem totalCount_pos_of_mem (db : Db) (m : Message) (cid : Nat)
    (hm : m ∈ db.messages) (hc : m.campaign_id = cid) : 0 < totalCount db cid := by
  unfold totalCount campaignMessages
  have hmem : m ∈ db.messages.filter (fun m2 => m2.campaign_id == cid) :=
    List.mem_filter.mpr ⟨hm, by simpa using hc⟩
  exact List.length_pos.mpr (List.ne_nil_of_mem hmem)

theorem applyDeliveryReceipt_found (db : Db) (r : Receipt) (log : Message)
    (hfind : findMessage db r.message_id = some log) :
    applyDeliveryReceipt db r =
      (if processedCount (receiptMessagePhase db r) log.campaign_id
            = totalCount (receiptMessagePhase db r) log.campaign_id ∧
          totalCount (receiptMessagePhase db r) log.campaign_id > 0
       then markCampaignSent (receiptMessagePhase db r) log.campaign_id
       else receiptMessagePhase db r, .ok ()) := by
  unfold applyDeliveryReceipt
  rw [hfind]

/-- C4: after a delivery receipt is applied to an existing message, if the
campaign's processed count (messages in `sent`/`delivered`/`failed`)
equals its total count, the campaign is set to `sent` with `sent_at`
stamped; otherwise the receipt leaves the campaign rows untouched. -/
theorem C4_reconciler_completion (db : Db) (r : Receipt) (log : Message)
    (hfind : findMessage db r.message_id = some log) :
    (processedCount (receiptMessagePhase db r) log.campaign_id
        = totalCount (receiptMessagePhase db r) log.campaign_id →
      ∀ c ∈ (applyDeliveryReceipt db r).1.campaigns,
        c.id = log.campaign_id → c.status = CampaignStatus.sent ∧ c.sent_at_set = true) ∧
    (processedCount (receiptMessagePhase db r) log.campaign_id
        ≠ totalCount (receiptMessagePhase db r) log.campaign_id →
      (applyDeliveryReceipt db r).1.campaigns = db.campaigns) := by
  obtain ⟨hmem, hid⟩ := findMessage_spec db r.message_id log hfind
  have hpos : 0 < totalCount (receiptMessagePhase db r) log.campaign_id := by
    rw [totalCount_receiptMessagePhase]
    exact totalCount_pos_of_mem db log log.campaign_id hmem rfl
  have hrep := applyDeliveryReceipt_found db r log hfind
  have h1 : (applyDeliveryReceipt db r).1
      = (if processedCount (receiptMessagePhase db r) log.campaign_id
              = totalCount (receiptMessagePhase db r) log.campaign_id ∧
            totalCount (receiptMessagePhase db r) log.campaign_id > 0
         then markCampaignSent (receiptMessagePhase db r) log.campaign_id
         else receiptMessagePhase db r) := by
    rw [hrep]
  constructor
  · intro hEq c hc hcid
    rw [h1, if_pos ⟨hEq, hpos⟩] at hc
    exact markCampaignSent_mem _ _ c hc hcid
  · intro hNe
    rw [h1, if_neg (fun hand => hNe hand.1)]
    exact receiptMessagePhase_campaigns db r

/-- State of the C4 witness: campaign 1 `sending` with its only message in
`sent` status. -/
def dbC4 : Db :=
  { campaigns := [{ id := 1, status := .sending, sent_at_set := false }],
    messages := [{ id := 5, campaign_id := 1, customer_id := 3,
                   message_content := "hi there", status := .sent,
                   vendor_message_id := some "m5", failure_reason := none }],
    nextMessageId := 6 }

/-- Receipt of the C4 witness: a `delivered` outcome for message 5. -/
def rC4 : Receipt :=
  { message_id := 5, status := "delivered", failure_reason := none,
    vendor_message_id := some "v5" }

/-- C4 witness: the delivered receipt completes the one-message campaign,
which becomes `sent` with `sent_at` stamped, instantiated at the resulting
campaign row. -/
theorem C4_witness :
    ({ id := 1, status := CampaignStatus.sent, sent_at_set := true } : Campaign).status
        = CampaignStatus.sent ∧
    ({ id := 1, status := CampaignStatus.sent, sent_at_set := true } : Campaign).sent_at_set
        = true :=
  (C4_reconciler_completion dbC4 rC4
    { id := 5, campaign_id := 1, customer_id := 3,
      message_content := "hi there", status := .sent,
      vendor_message_id := some "m5", failure_reason := none } rfl).1 rfl
    { id := 1, status := CampaignStatus.sent, sent_at_set := true } (by decide) rfl

theorem Db.ext_eq (a b : Db) (h1 : a.campaigns = b.campaigns)
    (h2 : a.messages = b.messages) (h3 : a.nextMessageId = b.nextMessageId) :
    a = b := by
  cases a
  cases b
  simp_all

theorem updateMessage_idem (db : Db) (mid : Nat) (f : Message → Message)
    (hf : ∀ m, f (f m) = f m) (hid : ∀ m, (f m).id = m.id) :
    updateMessage (updateMessage db mid f) mid f = updateMessage db mid f := by
  unfold updateMessage
  refine Db.ext_eq _ _ rfl ?_ rfl
  show (db.messages.map fun m => if m.id = mid then f m else m).map
      (fun m => if m.id = mid then f m else m)
    = db.messages.map fun m => if m.id = mid then f m else m
  rw [List.map_map]
  apply List.map_congr_left
  intro m _
  by_cases h : m.id = mid
  · simp [Function.comp, h, hid, hf]
  · simp [Function.comp, h]

theorem markCampaignSent_idem (db : Db) (cid : Nat) :
    markCampaignSent (markCampaignSent db cid) cid = markCampaignSent db cid := by
  unfold markCampaignSent
  refine Db.ext_eq _ _ ?_ rfl rfl
  show (db.campaigns.map fun c => if c.id = cid then
          { c with status := .sent, sent_at_set := true } else c).map
        (fun c => if c.id = cid then
          { c with status := .sent, sent_at_set := true } else c)
    = db.campaigns.map fun c => if c.id = cid then
        { c with status := .sent, sent_at_set := true } else c
  rw [List.map_map]
  apply List.map_congr_left
  intro c _
  by_cases h : c.id = cid
  · simp [Function.comp, h]
  · simp [Function.comp, h]

theorem find_update_list (mid : Nat) (f : Message → Message)
    (hid : ∀ m, (f m).id = m.id) :
    ∀ l : List Message,
      (l.map (fun m => if m.id = mid then f m else m)).find? (fun m => m.id == mid)
        = (l.find? (fun m => m.id == mid)).map
            (fun m => if m.id = mid then f m else m) := by
  intro l
  induction l with
  | nil => rfl
  | cons m rest ih =>
      by_cases h : m.id = mid
      · rw [List.map_cons]
        rw [List.find?_cons_of_pos _ (by simp [h, hid]), List.find?_cons_of_pos _ (by simp [h])]
        simp
      · rw [List.map_cons]
        rw [List.find?_cons_of_neg _ (by simp [h]), List.find?_cons_of_neg _ (by simp [h])]
        exact ih

theorem findMessage_updateMessage (db : Db) (mid : Nat) (f : Message → Message)
    (hid : ∀ m, (f m).id = m.id) :
    findMessage (updateMessage db mid f) mid
      = (findMessage db mid).map (fun m => if m.id = mid then f m else m) := by
  unfold findMessage updateMessage
  exact find_update_list mid f hid db.messages

theorem processedCount_messages_eq (a b : Db) (cid : Nat)
    (h : a.messages = b.messages) : processedCount a cid = processedCount b cid := by
  unfold processedCount campaignMessages
  rw [h]

theorem totalCount_messages_eq (a b : Db) (cid : Nat)
    (h : a.messages = b.messages) : totalCount a cid = totalCount b cid := by
  unfold totalCount campaignMessages
  rw [h]

theorem markCampaignSent_campaigns_eq (a b : Db) (cid : Nat)
    (h : a.campaigns = b.campaigns) :
    (markCampaignSent a cid).campaigns = (markCampaignSent b cid).campaigns := by
  unfold markCampaignSent
  simp [h]

theorem findMessage_applyReceipt (db : Db) (r : Receipt) (log : Message)
    (hfind : findMessage db r.message_id = some log) :
    findMessage (applyDeliveryReceipt db r).1 r.message_id
      = some (receiptUpdateFn r log) := by
  obtain ⟨hmem, hlogid⟩ := findMessage_spec db r.message_id log hfind
  have h1 : (applyDeliveryReceipt db r).1
      = (if processedCount (receiptMessagePhase db r) log.campaign_id
              = totalCount (receiptMessagePhase db r) log.campaign_id ∧
            totalCount (receiptMessagePhase db r) log.campaign_id > 0
         then markCampaignSent (receiptMessagePhase db r) log.campaign_id
         else receiptMessagePhase db r) := by
    rw [applyDeliveryReceipt_found db r log hfind]
  have hmsgs1 : (applyDeliveryReceipt db r).1.messages
      = (receiptMessagePhase db r).messages := by
    rw [h1]
    split
    · exact markCampaignSent_messages _ _
    · rfl
  have heq1 : findMessage (applyDeliveryReceipt db r).1 r.message_id
      = findMessage (receiptMessagePhase db r) r.message_id := by
    unfold findMessage
    rw [hmsgs1]
  rw [heq1, receiptMessagePhase_eq,
    findMessage_updateMessage db r.message_id _ (receiptUpdateFn_id r), hfind]
  simp [hlogid]

theorem applyDeliveryReceipt_idem (db : Db) (r : Receipt) :
    (applyDeliveryReceipt (applyDeliveryReceipt db r).1 r).1
      = (applyDeliveryReceipt db r).1 := by
  cases hfind : findMessage db r.message_id with
  | none =>
      have h1 : (applyDeliveryReceipt db r).1 = db := by
        unfold applyDeliveryReceipt
        rw [hfind]
      rw [h1]
      exact h1
  | some log =>
      obtain ⟨hmem, hlogid⟩ := findMessage_spec db r.message_id log hfind
      have hphase := receiptMessagePhase_eq db r
      have h1 : (applyDeliveryReceipt db r).1
          = (if processedCount (receiptMessagePhase db r) log.campaign_id
                  = totalCount (receiptMessagePhase db r) log.campaign_id ∧
                totalCount (receiptMessagePhase db r) log.campaign_id > 0
             then markCampaignSent (receiptMessagePhase db r) log.campaign_id
             else receiptMessagePhase db r) := by
        rw [applyDeliveryReceipt_found db r log hfind]
      have hmsgs1 : (applyDeliveryReceipt db r).1.messages
          = (receiptMessagePhase db r).messages := by
        rw [h1]
        split
        · exact markCampaignSent_messages _ _
        · rfl
      have hfind1 := findMessage_applyReceipt db r log hfind
      have h2 : (applyDeliveryReceipt (applyDeliveryReceipt db r).1 r).1
          = (if processedCount (receiptMessagePhase (applyDeliveryReceipt db r).1 r)
                  (receiptUpdateFn r log).campaign_id
                  = totalCount (receiptMessagePhase (applyDeliveryReceipt db r).1 r)
                      (receiptUpdateFn r log).campaign_id ∧
                totalCount (receiptMessagePhase (applyDeliveryReceipt db r).1 r)
                    (receiptUpdateFn r log).campaign_id > 0
             then markCampaignSent (receiptMessagePhase (applyDeliveryReceipt db r).1 r)
                    (receiptUpdateFn r log).campaign_id
             else receiptMessagePhase (applyDeliveryReceipt db r).1 r) := by
        rw [applyDeliveryReceipt_found _ r _ hfind1]
      have hcid2 : (receiptUpdateFn r log).campaign_id = log.campaign_id :=
        receiptUpdateFn_campaign r log
      have hph2msgs : (receiptMessagePhase (applyDeliveryReceipt db r).1 r).messages
          = (receiptMessagePhase db r).messages := by
        calc (receiptMessagePhase (applyDeliveryReceipt db r).1 r).messages
            = (updateMessage (applyDeliveryReceipt db r).1 r.message_id
                (receiptUpdateFn r)).messages := by rw [receiptMessagePhase_eq]
          _ = (applyDeliveryReceipt db r).1.messages.map
                (fun m => if m.id = r.message_id then receiptUpdateFn r m else m) := rfl
          _ = (receiptMessagePhase db r).messages.map
                (fun m => if m.id = r.message_id then receiptUpdateFn r m else m) := by
                rw [hmsgs1]
          _ = (updateMessage db r.message_id (receiptUpdateFn r)).messages.map
                (fun m => if m.id = r.message_id then receiptUpdateFn r m else m) := by
                rw [hphase]
          _ = (updateMessage (updateMessage db r.message_id (receiptUpdateFn r))
                r.message_id (receiptUpdateFn r)).messages := rfl
          _ = (updateMessage db r.message_id (receiptUpdateFn r)).messages :=
                congrArg Db.messages (updateMessage_idem db r.message_id _
                  (receiptUpdateFn_idem r) (receiptUpdateFn_id r))
          _ = (receiptMessagePhase db r).messages := by rw [← hphase]
      have hproc : processedCount (receiptMessagePhase (applyDeliveryReceipt db r).1 r)
            log.campaign_id = processedCount (receiptMessagePhase db r) log.campaign_id :=
        processedCount_messages_eq _ _ _ hph2msgs
      have htotC : totalCount (receiptMessagePhase (applyDeliveryReceipt db r).1 r)
            log.campaign_id = totalCount (receiptMessagePhase db r) log.campaign_id :=
        totalCount_messages_eq _ _ _ hph2msgs
      by_cases hcond : processedCount (receiptMessagePhase db r) log.campaign_id
          = totalCount (receiptMessagePhase db r) log.campaign_id ∧
          totalCount (receiptMessagePhase db r) log.campaign_id > 0
      · have h1p : (applyDeliveryReceipt db r).1
            = markCampaignSent (receiptMessagePhase db r) log.campaign_id := by
          rw [h1, if_pos hcond]
        have hcond2 : processedCount (receiptMessagePhase (applyDeliveryReceipt db r).1 r)
              (receiptUpdateFn r log).campaign_id
              = totalCount (receiptMessagePhase (applyDeliveryReceipt db r).1 r)
                  (receiptUpdateFn r log).campaign_id ∧
            totalCount (receiptMessagePhase (applyDeliveryReceipt db r).1 r)
                (receiptUpdateFn r log).campaign_id > 0 := by
          rw [hcid2, hproc, htotC]
          exact hcond
        rw [h2, if_pos hcond2, hcid2]
        conv_rhs => rw [h1p]
        have e1 : (receiptMessagePhase (applyDeliveryReceipt db r).1 r).campaigns
            = (markCampaignSent (receiptMessagePhase db r) log.campaign_id).campaigns := by
          rw [receiptMessagePhase_campaigns, h1p]
        refine Db.ext_eq _ _ ?_ ?_ ?_
        · calc (markCampaignSent (receiptMessagePhase (applyDeliveryReceipt db r).1 r)
                  log.campaign_id).campaigns
              = (markCampaignSent (markCampaignSent (receiptMessagePhase db r)
                  log.campaign_id) log.campaign_id).campaigns :=
                markCampaignSent_campaigns_eq _ _ log.campaign_id e1
            _ = (markCampaignSent (receiptMessagePhase db r) log.campaign_id).campaigns :=
                congrArg Db.campaigns (markCampaignSent_idem _ log.campaign_id)
        · calc (markCampaignSent (receiptMessagePhase (applyDeliveryReceipt db r).1 r)
                  log.campaign_id).messages
              = (receiptMessagePhase (applyDeliveryReceipt db r).1 r).messages :=
                markCampaignSent_messages _ _
            _ = (receiptMessagePhase db r).messages := hph2msgs
            _ = (markCampaignSent (receiptMessagePhase db r) log.campaign_id).messages :=
                (markCampaignSent_messages _ _).symm
        · calc (markCampaignSent (receiptMessagePhase (applyDeliveryReceipt db r).1 r)
                  log.campaign_id).nextMessageId
              = (receiptMessagePhase (applyDeliveryReceipt db r).1 r).nextMessageId := rfl
            _ = (applyDeliveryReceipt db r).1.nextMessageId :=
                receiptMessagePhase_nextId _ r
            _ = (markCampaignSent (receiptMessagePhase db r)
                  log.campaign_id).nextMessageId := by rw [h1p]
      · have h1n : (applyDeliveryReceipt db r).1 = receiptMessagePhase db r := by
          rw [h1, if_neg hcond]
        have hcond2n : ¬(processedCount (receiptMessagePhase (applyDeliveryReceipt db r).1 r)
              (receiptUpdateFn r log).campaign_id
              = totalCount (receiptMessagePhase (applyDeliveryReceipt db r).1 r)
                  (receiptUpdateFn r log).campaign_id ∧
            totalCount (receiptMessagePhase (applyDeliveryReceipt db r).1 r)
                (receiptUpdateFn r log).campaign_id > 0) := by
          rw [hcid2, hproc, htotC]
          exact hcond
        rw [h2, if_neg hcond2n, h1n]
        calc receiptMessagePhase (receiptMessagePhase db r) r
            = updateMessage (receiptMessagePhase db r) r.message_id (receiptUpdateFn r) :=
              receiptMessagePhase_eq _ r
          _ = updateMessage (updateMessage db r.message_id (receiptUpdateFn r))
                r.message_id (receiptUpdateFn r) := by rw [hphase]
          _ = updateMessage db r.message_id (receiptUpdateFn r) :=
              updateMessage_idem db r.message_id _ (receiptUpdateFn_idem r)
                (receiptUpdateFn_id r)
          _ = receiptMessagePhase db r := hphase.symm

/-- State of the C2 counterexample: message 5 already in the terminal
status `delivered`. -/
def dbC2 : Db :=
  { campaigns := [{ id := 1, status := .sending, sent_at_set := false }],
    messages := [{ id := 5, campaign_id := 1, customer_id := 3,
                   message_content := "hi there", status := .delivered,
                   vendor_message_id := some "v1", failure_reason := none }],
    nextMessageId := 6 }

/-- Receipt of the C2 counterexample: a later `failed` outcome for the
already-delivered message 5. -/
def rC2 : Receipt :=
  { message_id := 5, status := "failed",
    failure_reason := some "Customer opted out", vendor_message_id := none }

/-- C2: the claim fails on the code: the delivery-receipt handler has no
guard on the current status, so a message already in the terminal status
`delivered` is overwritten to the different terminal status `failed` by a
later `failed` receipt. -/
theorem C2_counterexample :
    messageStatusOf dbC2 5 = some MsgStatus.delivered ∧
    messageStatusOf (applyDeliveryReceipt dbC2 rC2).1 5 = some MsgStatus.failed ∧
    MsgStatus.failed ≠ MsgStatus.delivered := by
  refine ⟨rfl, rfl, by decide⟩

/-- C2 (amended): applying the same delivery receipt twice is idempotent —
the second application leaves the database exactly as the first — and a
receipt whose outcome matches the message's current terminal status leaves
that status unchanged; the handler does not, however, guard against a
receipt whose outcome differs from the current terminal status, which
overwrites it. -/
theorem C2_amended_receipt_idempotent (db : Db) (r : Receipt) :
    (applyDeliveryReceipt (applyDeliveryReceipt db r).1 r).1
      = (applyDeliveryReceipt db r).1 ∧
    (∀ log, findMessage db r.message_id = some log →
      ((log.status = MsgStatus.delivered ∧ r.status = "delivered") ∨
       (log.status = MsgStatus.failed ∧ r.status = "failed")) →
      messageStatusOf (applyDeliveryReceipt db r).1 r.message_id
        = some log.status) := by
  refine ⟨applyDeliveryReceipt_idem db r, ?_⟩
  intro log hfind hcase
  have hfind1 := findMessage_applyReceipt db r log hfind
  unfold messageStatusOf
  rw [hfind1]
  rcases hcase with ⟨hst, hrs⟩ | ⟨hst, hrs⟩
  · simp [receiptUpdateFn, hrs, hst]
  · simp [receiptUpdateFn, hrs, hst]

/-- A `delivered` receipt for the already-delivered message 5. -/
def rC2b : Receipt :=
  { message_id := 5, status := "delivered", failure_reason := none,
    vendor_message_id := some "v1" }

/-- C2 amended witness: re-delivering message 5's `delivered` receipt is a
no-op on the whole state and keeps the status `delivered`. -/
theorem C2_witness :
    (applyDeliveryReceipt (applyDeliveryReceipt dbC2 rC2b).1 rC2b).1
      = (applyDeliveryReceipt dbC2 rC2b).1 ∧
    messageStatusOf (applyDeliveryReceipt dbC2 rC2b).1 5 = some MsgStatus.delivered := by
  refine ⟨(C2_amended_receipt_idempotent dbC2 rC2b).1, ?_⟩
  exact (C2_amended_receipt_idempotent dbC2 rC2b).2
    { id := 5, campaign_id := 1, customer_id := 3, message_content := "hi there",
      status := .delivered, vendor_message_id := some "v1", failure_reason := none }
    rfl (Or.inl ⟨rfl, rfl⟩)
